import Mathlib

/-!
Shallow embedding of `tests/run_scripts.py` (fishilico/home-files): the
bin-scripts test harness.  Python strings are modelled as lists of
characters (`Str`), the operating-system environment (PATH variable,
filesystem existence, interpreter version) as an explicit `Env` record,
and child-process execution as an oracle giving the exit code of each
spawned command line.  The spawned processes are collected in a trace so
that properties about stream redirection and about which scripts get
executed can be stated.
-/

namespace RunScripts

/-- Python strings, modelled as lists of characters. -/
abbrev Str := List Char

/-- Python `s.split(sep)` for a one-character separator `sep`:
`''.split(sep) = ['']`, and every occurrence of `sep` starts a new
(possibly empty) field. -/
def pySplit (sep : Char) : Str → List Str
  | [] => [[]]
  | c :: rest =>
    match pySplit sep rest with
    | [] => [[]]
    | t :: ts => if c = sep then [] :: t :: ts else (c :: t) :: ts

/-- Split a string at the first `')'`: `findClose s = some (a, b)` when
`s = a ++ ')' :: b` and `a` contains no `')'`; `none` when `s` has no
`')'` (in which case Python's `s.index(')')` raises `ValueError`). -/
def findClose : Str → Option (Str × Str)
  | [] => none
  | c :: rest =>
    if c = ')' then some ([], rest)
    else
      match findClose rest with
      | none => none
      | some (a, b) => some (c :: a, b)

/-- The ambient operating system state read by `is_installed`:
`version` is `(sys.version_info.major, sys.version_info.minor)`,
`pathVar` is `os.environ.get('PATH', '')`, and `pathExists` is
`os.path.exists`. -/
structure Env where
  version : Nat × Nat
  pathVar : Str
  pathExists : Str → Bool

/-- Python tuple comparison `sys.version_info >= (maj, min)`.  Since
`sys.version_info` always has at least three components, comparing it
with a pair reduces to the lexicographic order on the first two
components, with equality of both counting as `≥`. -/
def versionGe (v c : Nat × Nat) : Bool :=
  decide (c.1 < v.1) || (decide (v.1 = c.1) && decide (c.2 ≤ v.2))

/-- `int(s)` on a string of decimal digits. -/
def digitsToNat (ds : Str) : Nat :=
  ds.foldl (fun a c => 10 * a + (c.toNat - '0'.toNat)) 0

/-- The characters of `"python>="`. -/
def pythonPrefixChars : Str := ['p', 'y', 't', 'h', 'o', 'n', '>', '=']

/-- Matching of `([23])\.([0-9]+)$` against the part of the program name
after `"python>="`: a major digit `2` or `3`, a literal dot, and a
nonempty run of decimal digits extending to the end of the string. -/
def matchVersionTail : Str → Option (Nat × Nat)
  | mj :: dot :: ds =>
    if (mj == '2' || mj == '3') && (dot == '.') && (!ds.isEmpty) &&
        ds.all Char.isDigit then
      some (mj.toNat - '0'.toNat, digitsToNat ds)
    else none
  | _ => none

/-- `re.match(r'^python>=([23])\.([0-9]+)$', program)`, returning the
two captured groups as numbers when the whole string matches. -/
def matchPythonVersion (s : Str) : Option (Nat × Nat) :=
  if pythonPrefixChars.isPrefixOf s then matchVersionTail (s.drop 8)
  else none

/-- `os.path.join(d, p)` on POSIX: `p` wins when absolute, otherwise the
parts are joined with a single `'/'` unless `d` is empty or already ends
with `'/'`. -/
def osPathJoin (d p : Str) : Str :=
  if p.head? = some '/' then p
  else if d = [] then p
  else if d.getLast? = some '/' then d ++ p
  else d ++ '/' :: p

/-- `is_installed(program)`: a `python>=MAJ.MIN` constraint is compared
against the interpreter version; an absolute path is checked for
existence; otherwise each directory of `PATH` (split on `':'`, the POSIX
`os.pathsep`) is scanned for an entry named `program`. -/
def is_installed (env : Env) (program : Str) : Bool :=
  match matchPythonVersion program with
  | some v => versionGe env.version v
  | none =>
    if program.head? = some '/' then env.pathExists program
    else (pySplit ':' env.pathVar).any fun d => env.pathExists (osPathJoin d program)

/-- Outcome of `build_cmdline_from_spec`: `skip` is Python's `None`,
`run` is a returned command line, `checkError` is a raised `CheckError`
(the payload records the offending specification, standing for the
message `"unknown specification %r" % spec`), and `valueError` is the
`ValueError` raised by `spec.index(')')` when no `')'` exists. -/
inductive BuildResult where
  | skip
  | run (cmdline : List Str)
  | checkError (spec : Str)
  | valueError
  deriving DecidableEq

/-- The characters of `"never"`. -/
def neverChars : Str := ['n', 'e', 'v', 'e', 'r']

/-- The characters of `"direct"`. -/
def directChars : Str := ['d', 'i', 'r', 'e', 'c', 't']

/-- The characters of `"help"`. -/
def helpChars : Str := ['h', 'e', 'l', 'p']

/-- The characters of `"--help"`. -/
def helpFlagChars : Str := ['-', '-', 'h', 'e', 'l', 'p']

/-- The characters of `"args["`. -/
def argsOpenChars : Str := ['a', 'r', 'g', 's', '[']

/-- The dependency check of `build_cmdline_from_spec`: the text between
the parentheses is split on `','` into groups, each group on `'|'` into
choices, and the code proceeds only when for every group all choices are
installed (`all(is_installed(dep) for dep in choices)`).  NOTE: the
source really uses `all` here, although the `'|'`-separated entries are
named `choices` of an `ordep`. -/
def depsSatisfied (inst : Str → Bool) (deps : Str) : Bool :=
  (pySplit ',' deps).all fun ordep => (pySplit '|' ordep).all fun dep => inst dep

/-- The four mode checks at the end of `build_cmdline_from_spec`,
applied after the optional dependency clause has been stripped:
`never`, `direct`, `help`, `args[...]` (whose bracketed text
`spec[5:-1]` is split on single spaces), otherwise `CheckError`. -/
def modeCmdline (prog spec : Str) : BuildResult :=
  if spec = neverChars then .skip
  else if spec = directChars then .run [prog]
  else if spec = helpChars then .run [prog, helpFlagChars]
  else if argsOpenChars.isPrefixOf spec ∧ spec.getLast? = some ']' then
    .run (prog :: pySplit ' ' ((spec.drop 5).dropLast))
  else .checkError spec

/-- `build_cmdline_from_spec(prog, spec)`: when the specification starts
with `'('`, the text up to the first `')'` is the dependency clause (no
`')'` at all raises `ValueError`); an unsatisfied clause returns `None`
(skip), otherwise the rest of the string is dispatched on the four mode
forms. -/
def build_cmdline_from_spec (inst : Str → Bool) (prog spec : Str) : BuildResult :=
  if spec.head? = some '(' then
    match findClose spec.tail with
    | none => .valueError
    | some (deps, tl) =>
      if depsSatisfied inst deps then modeCmdline prog tl else .skip
  else modeCmdline prog spec

/-- The command-line options of `test()` (optparse flags, absent means
false): `--debug` (`-d`), `--show-output` (`-o`), `--verbose` (`-v`). -/
structure Opts where
  debug : Bool
  showOutput : Bool
  verbose : Bool
  deriving DecidableEq

/-- One spawned child process, as configured by `run_program`: the
script name, the command line handed to `subprocess.Popen`, and whether
each output stream was bound to `os.devnull` (`stdin` is always bound to
the null device and is not recorded).  `stdoutNull`/`stderrNull` being
`false` means the stream was inherited from the runner (`None`). -/
structure Proc where
  prog : Str
  cmdline : List Str
  stdoutNull : Bool
  stderrNull : Bool
  deriving DecidableEq

/-- `run_program(filepath, cmdline, show_output, show_error)`: spawn the
process with `stdout=None if show_output else devnull` and
`stderr=None if show_error else devnull`, wait, and succeed iff the exit
code is zero (a non-zero code raises `CheckError`).  `exitOf` is the
oracle giving each child's exit code. -/
def run_program (exitOf : Str → List Str → Int) (show_output show_error : Bool)
    (prog : Str) (cmdline : List Str) : Proc × Bool :=
  (⟨prog, cmdline, !show_output, !show_error⟩, exitOf prog cmdline == 0)

/-- Outcome of one iteration of the loop in `test()`: `ok ret spawned`
when the iteration completed (`ret` is false when a `CheckError` was
caught and logged, `spawned` records the child process if one was
started), `crash` when an exception that is not a `CheckError`
propagated out of the iteration (only the `ValueError` of
`spec.index(')')` can do so). -/
inductive StepResult where
  | ok (ret : Bool) (spawned : Option Proc)
  | crash
  deriving DecidableEq

/-- One iteration of the `for prog in bin_files` loop of `test()`:
look the script up in the policy table (`BIN_SCRIPTS.get`), raise
`CheckError` when absent, build the command line, skip on `None`,
otherwise run the program; `CheckError` is caught and turns into a
local failure (`ok false`). -/
def processScript (inst : Str → Bool) (exitOf : Str → List Str → Int)
    (opts : Opts) (scripts : List (Str × Str)) (prog : Str) : StepResult :=
  match List.lookup prog scripts with
  | none => .ok false none
  | some spec =>
    match build_cmdline_from_spec inst prog spec with
    | .valueError => .crash
    | .checkError _ => .ok false none
    | .skip => .ok true none
    | .run cmdline =>
      .ok (run_program exitOf opts.showOutput (opts.debug || opts.verbose)
            prog cmdline).2
        (some (run_program exitOf opts.showOutput (opts.debug || opts.verbose)
            prog cmdline).1)

/-- The whole `for prog in bin_files` loop: the first component is
`some retval` when every iteration completed (`retval` is the
conjunction of the per-script outcomes, modelling the sticky
`retval = False`), `none` when some iteration crashed; the second
component is the trace of all child processes spawned before the end of
the loop or the crash. -/
def scriptLoop (inst : Str → Bool) (exitOf : Str → List Str → Int)
    (opts : Opts) (scripts : List (Str × Str)) : List Str → Option Bool × List Proc
  | [] => (some true, [])
  | f :: fs =>
    match processScript inst exitOf opts scripts f with
    | .crash => (none, [])
    | .ok r p =>
      ((scriptLoop inst exitOf opts scripts fs).1.map fun b => r && b,
       p.toList ++ (scriptLoop inst exitOf opts scripts fs).2)

/-- `set(BIN_SCRIPTS) - set(bin_files)`: the policy-table keys that name
no file of the directory listing (only membership in this set is
observed, so a list stands in for Python's set). -/
def unusedFiles (scripts : List (Str × Str)) (binFiles : List Str) : List Str :=
  (scripts.map Prod.fst).filter fun k => !binFiles.contains k

/-- `test()`: run the loop over the (sorted) directory listing
`binFiles`, then and-in the reconciliation check that `unusedFiles` is
empty.  The result is `(some retval, trace)` on a normal run and
`(none, trace)` when an uncaught exception ended the run early. -/
def test (inst : Str → Bool) (exitOf : Str → List Str → Int) (opts : Opts)
    (scripts : List (Str × Str)) (binFiles : List Str) : Option Bool × List Proc :=
  ((scriptLoop inst exitOf opts scripts binFiles).1.map fun rv =>
      rv && (unusedFiles scripts binFiles).isEmpty,
   (scriptLoop inst exitOf opts scripts binFiles).2)

/-- The `BIN_SCRIPTS` policy table, verbatim from the source. -/
def BIN_SCRIPTS : List (Str × Str) :=
  ([("acpi-bat", "(acpi)args[--one-shot]"),
    ("afl-sysctl-config", "never"),
    ("aplaytest", "never"),
    ("asciitable", "direct"),
    ("capabilities", "(/proc)direct"),
    ("captive-portal", "(python3)help"),
    ("check-certificate", "help"),
    ("chromium-incognito", "(chromium)never"),
    ("clang-format-meld", "(clang-format)direct"),
    ("clean-pdf", "never"),
    ("colortable", "direct"),
    ("compile-netbpf", "(tcpdump,/proc)direct"),
    ("config-summary", "direct"),
    ("crc32", "args[Hello, world!]"),
    ("data-dir", "help"),
    ("dconf-dump", "(dconf)direct"),
    ("debian-purge-packages", "never"),
    ("decode-jwt", "help"),
    ("denastify-ssh", "args[-h]"),
    ("detect-distro", "(/usr/include/linux)direct"),
    ("disable-net-services", "never"),
    ("display-proc-maps", "(/proc)direct"),
    ("docker-purge", "never"),
    ("docker-update", "never"),
    ("dump-arch", "direct"),
    ("dxrandr", "never"),
    ("enter-container", "never"),
    ("errno", "args[42]"),
    ("escat", "help"),
    ("eth-disable-offload", "never"),
    ("find-broken-libdep", "(python3)help"),
    ("firefox-private", "(firefox)help"),
    ("flatpak-steam-valve", "never"),
    ("floatenc", "args[0x42280000]"),
    ("gcore_everything", "never"),
    ("getaddr", "args[localhost]"),
    ("get-power-rights", "(dbus-send|gdbus)direct"),
    ("git-single-fixup", "args[-h]"),
    ("graph-hw", "direct"),
    ("gsettings-dump", "(gsettings)direct"),
    ("ical-decode", "help"),
    ("iommu-chipsec", "help"),
    ("iommu-show", "direct"),
    ("iptables-rev", "args[-A INPUT -j DROP]"),
    ("iptables-stats", "(iptables,ip6tables)direct"),
    ("launch-gpg-ssh-agent", "never"),
    ("list-https-ciphers", "never"),
    ("list-ipc", "(/proc)direct"),
    ("list-namespaces", "(/proc)direct"),
    ("lsofdel", "(lsof)direct"),
    ("luksfile", "args[-h]"),
    ("makecleanpkg", "never"),
    ("mount-tree", "(/proc)direct"),
    ("musickbd", "never"),
    ("nft-dump", "(nft)direct"),
    ("nonet", "never"),
    ("noproxy", "args[true]"),
    ("ntpd-stats", "(ntpdc)direct"),
    ("pacman-disowned", "never"),
    ("ping6-local", "args[-h]"),
    ("ping-box", "never"),
    ("podman-bpytop", "never"),
    ("podman-codespell", "never"),
    ("podman-ghidra", "never"),
    ("podman-infer", "never"),
    ("podman-markdownlint", "never"),
    ("podman-purge", "never"),
    ("podman-update", "never"),
    ("podman-vscodium", "never"),
    ("rm-temp", "never"),
    ("ruby-gem-home", "(ruby)args[ruby --version]"),
    ("scan-ip4priv", "never"),
    ("selinux-audit-log", "(python>=3.6)help"),
    ("sensors-temp", "(sensors)direct"),
    ("set-title", "direct"),
    ("setup-dumpcap", "never"),
    ("shred-dir", "never"),
    ("smtp-send", "help"),
    ("suid-list", "args[-p]"),
    ("syscall", "(/usr/include/asm|/usr/include/linux|/usr/src/linux)args[-l]"),
    ("systemd-analyze-plot", "never"),
    ("tab2space", "never"),
    ("tpm-show", "(python>=3.7)help"),
    ("update-packages", "never"),
    ("useful-selinux-modules", "(python>=3.6)help"),
    ("vagrant-wireshark", "args[-h]"),
    ("vlc", "never"),
    ("who-is-here", "direct"),
    ("xscreen-resolution", "never"),
    ("xfconf-dump", "(xfconf-query)direct")] :
   List (String × String)).map fun p => (p.1.data, p.2.data)

/-- `sys.exit(0 if test() else 1)`: the process exit code of a run, or
`none` when the run died on an uncaught exception. -/
def mainExit (inst : Str → Bool) (exitOf : Str → List Str → Int) (opts : Opts)
    (binFiles : List Str) : Option Nat :=
  match (test inst exitOf opts BIN_SCRIPTS binFiles).1 with
  | none => none
  | some rv => some (if rv then 0 else 1)

/-- A specification string on which `build_cmdline_from_spec` cannot
raise `ValueError`: either it does not start with `'('`, or it contains
a `')'`. -/
def specWellFormed (spec : Str) : Bool :=
  if spec.head? = some '(' then (findClose spec.tail).isSome else true

/-- The specification resolves to `never`, possibly behind a dependency
clause: either the whole string is `"never"`, or it starts with `'('`
and the part after the first `')'` is `"never"`. -/
def isNeverSpec (spec : Str) : Bool :=
  if spec.head? = some '(' then
    match findClose spec.tail with
    | some dt => dt.2 == neverChars
    | none => false
  else spec == neverChars

/-- The success condition of one iteration of the loop of `test()` for
script `f`, stated declaratively: `f` has a policy entry, the entry
parses (no `CheckError`, no `ValueError`), and the script is either
skipped or runs with exit code zero. -/
def ScriptOk (inst : Str → Bool) (exitOf : Str → List Str → Int) (f : Str) : Prop :=
  ∃ spec, List.lookup f BIN_SCRIPTS = some spec ∧
    (build_cmdline_from_spec inst f spec = .skip ∨
     ∃ c, build_cmdline_from_spec inst f spec = .run c ∧ exitOf f c = 0)

section Lemmas

theorem lookup_mem {α β : Type} [BEq α] [LawfulBEq α] {l : List (α × β)} {k : α}
    {v : β} (h : List.lookup k l = some v) : (k, v) ∈ l := by
  induction l with
  | nil => cases h
  | cons p ps ih =>
    obtain ⟨a, b⟩ := p
    rw [List.lookup_cons] at h
    by_cases hk : (k == a) = true
    · rw [hk] at h
      cases h
      exact (beq_iff_eq.mp hk) ▸ List.mem_cons_self _ _
    · rw [Bool.not_eq_true] at hk
      rw [hk] at h
      exact List.mem_cons_of_mem _ (ih h)

theorem findClose_append (a b : Str) (h : ')' ∉ a) :
    findClose (a ++ ')' :: b) = some (a, b) := by
  induction a with
  | nil => simp [findClose]
  | cons c cs ih =>
    have hc : ¬c = ')' := fun hh => h (hh ▸ List.mem_cons_self _ _)
    have hcs : ')' ∉ cs := fun hh => h (List.mem_cons_of_mem _ hh)
    simp only [List.cons_append, findClose, if_neg hc, List.append_eq, ih hcs]

theorem findClose_split {s a b : Str} (h : findClose s = some (a, b)) :
    s = a ++ ')' :: b := by
  induction s generalizing a with
  | nil => cases h
  | cons c cs ih =>
    rw [findClose] at h
    by_cases hc : c = ')'
    · rw [if_pos hc] at h
      cases h
      rw [hc]
      rfl
    · rw [if_neg hc] at h
      cases hf : findClose cs with
      | none => rw [hf] at h; cases h
      | some dt =>
        rw [hf] at h
        cases h
        simpa using ih hf

theorem modeCmdline_run_head {prog spec : Str} {cl : List Str}
    (h : modeCmdline prog spec = .run cl) : ∃ rest, cl = prog :: rest := by
  unfold modeCmdline at h
  split_ifs at h with h1 h2 h3 h4
  · exact ⟨[], by cases h; rfl⟩
  · exact ⟨[helpFlagChars], by cases h; rfl⟩
  · exact ⟨pySplit ' ' ((spec.drop 5).dropLast), by cases h; rfl⟩

theorem modeCmdline_args (prog body : Str) :
    modeCmdline prog (argsOpenChars ++ body ++ [']']) =
      .run (prog :: pySplit ' ' body) := by
  unfold modeCmdline
  rw [if_neg (fun hh : argsOpenChars ++ body ++ [']'] = neverChars => by
    injection hh with h1 h2; exact absurd h1 (by decide))]
  rw [if_neg (fun hh : argsOpenChars ++ body ++ [']'] = directChars => by
    injection hh with h1 h2; exact absurd h1 (by decide))]
  rw [if_neg (fun hh : argsOpenChars ++ body ++ [']'] = helpChars => by
    injection hh with h1 h2; exact absurd h1 (by decide))]
  rw [if_pos (show argsOpenChars.isPrefixOf (argsOpenChars ++ body ++ [']']) ∧
      (argsOpenChars ++ body ++ [']']).getLast? = some ']' by
    refine ⟨?_, List.getLast?_concat _⟩
    rw [List.isPrefixOf_iff_prefix, List.append_assoc]
    exact List.prefix_append _ _)]
  rw [show ((argsOpenChars ++ body ++ [']']).drop 5) = body ++ [']'] from rfl,
    List.dropLast_concat]

theorem modeCmdline_ne_valueError (prog spec : Str) :
    modeCmdline prog spec ≠ .valueError := by
  unfold modeCmdline
  split_ifs <;> simp

theorem build_ne_valueError (inst : Str → Bool) (prog spec : Str)
    (h : specWellFormed spec = true) :
    build_cmdline_from_spec inst prog spec ≠ .valueError := by
  unfold specWellFormed at h
  unfold build_cmdline_from_spec
  split_ifs at h ⊢ with h1
  · cases hf : findClose spec.tail with
    | none => rw [hf] at h; cases h
    | some dt =>
      simp only [hf]
      split_ifs
      · exact modeCmdline_ne_valueError _ _
      · simp
  · exact modeCmdline_ne_valueError _ _

theorem build_of_isNeverSpec (inst : Str → Bool) (prog spec : Str)
    (h : isNeverSpec spec = true) :
    build_cmdline_from_spec inst prog spec = .skip := by
  unfold isNeverSpec at h
  unfold build_cmdline_from_spec
  split_ifs at h ⊢ with h1
  · cases hf : findClose spec.tail with
    | none => rw [hf] at h; cases h
    | some dt =>
      rw [hf] at h
      simp only [hf]
      have h2 : dt.2 = neverChars := by simpa using h
      split_ifs
      · rw [h2]; rfl
      · rfl
  · have h2 : spec = neverChars := by simpa using h
    rw [h2]
    rfl

end Lemmas

/-- C1: the code evaluated at the failing input.  For the policy
`(dbus-send|gdbus)direct` with `dbus-send` installed and `gdbus` not,
the `'|'` group has a resolving alternative, yet
`build_cmdline_from_spec` skips the script instead of returning a
command line, because the source applies `all` (not `any`) to the
choices of an `ordep`. -/
theorem orGroupNeedsAllAlternatives :
    build_cmdline_from_spec (fun s => s == ("dbus-send").data)
      (("get-power-rights").data) (("(dbus-send|gdbus)direct").data) = .skip ∧
    (fun s => s == ("dbus-send").data) (("dbus-send").data) = true ∧
    (fun s => s == ("dbus-send").data) (("gdbus").data) = false := by
  decide

/-- C6: for every policy of the form `args[...]`, the command line is
the script name followed by the bracketed text split on single space
characters, every other character kept literally; in particular
`args[a, b, c]` yields the arguments `"a,"`, `"b,"`, `"c"` with the
commas kept inside the tokens. -/
theorem argsSplitOnSingleSpaces (inst : Str → Bool) (prog body : Str) :
    build_cmdline_from_spec inst prog (argsOpenChars ++ body ++ [']']) =
      .run (prog :: pySplit ' ' body) ∧
    build_cmdline_from_spec inst (("crc32").data) (("args[a, b, c]").data) =
      .run [("crc32").data, ("a,").data, ("b,").data, ("c").data] ∧
    ∀ deps, ')' ∉ deps → depsSatisfied inst deps = true →
      build_cmdline_from_spec inst prog
          ('(' :: deps ++ ')' :: (argsOpenChars ++ body ++ [']'])) =
        .run (prog :: pySplit ' ' body) := by
  refine ⟨?_, rfl, ?_⟩
  · unfold build_cmdline_from_spec
    rw [if_neg (fun hh : (argsOpenChars ++ body ++ [']']).head? = some '(' => by
      rw [show (argsOpenChars ++ body ++ [']']).head? = some 'a' from rfl] at hh
      exact absurd hh (by decide))]
    exact modeCmdline_args prog body
  · intro deps hnp hsat
    unfold build_cmdline_from_spec
    rw [if_pos (show ('(' :: deps ++ ')' :: (argsOpenChars ++ body ++ [']'])).head? =
      some '(' from rfl)]
    rw [show ('(' :: deps ++ ')' :: (argsOpenChars ++ body ++ [']'])).tail =
      deps ++ ')' :: (argsOpenChars ++ body ++ [']']) from rfl]
    simp only [findClose_append deps (argsOpenChars ++ body ++ [']']) hnp, hsat,
      eq_self_iff_true, if_true]
    exact modeCmdline_args prog body

/-- C8 (counterexample): the version-constraint form is not honoured
for an arbitrary major version.  With interpreter version `(3, 11)` and
no file named `python>=1.0` anywhere, the token `python>=1.0` is not
installed even though `(3, 11) ≥ (1, 0)`, refuting the claimed
equivalence at `MAJOR = 1`. -/
theorem versionConstraintArbitraryMajorFails :
    is_installed ⟨(3, 11), [], fun _ => false⟩ (("python>=1.0").data) = false ∧
    versionGe (3, 11) (1, 0) = true := by
  decide

/-- C8 (amended): for a dependency token `python>=MAJOR.MINOR` whose
major version is the single digit `2` or `3` and whose minor version is
a nonempty digit string, `is_installed` returns true iff the running
interpreter's version tuple is `≥ (MAJOR, MINOR)`. -/
theorem versionConstraintMatchesInterpreter (env : Env) (mj : Char) (ds : Str)
    (hmj : mj = '2' ∨ mj = '3') (hne : ds ≠ []) (hdig : ds.all Char.isDigit = true) :
    is_installed env (pythonPrefixChars ++ mj :: '.' :: ds) =
      versionGe env.version (mj.toNat - '0'.toNat, digitsToNat ds) := by
  have hpre : pythonPrefixChars.isPrefixOf (pythonPrefixChars ++ mj :: '.' :: ds) = true := by
    rw [List.isPrefixOf_iff_prefix]
    exact List.prefix_append _ _
  have h1 : (mj == '2' || mj == '3') = true := by
    rcases hmj with rfl | rfl <;> decide
  have h2 : (!ds.isEmpty) = true := by
    cases ds
    · exact absurd rfl hne
    · rfl
  have hcond : ((mj == '2' || mj == '3') && ('.' == '.') && (!ds.isEmpty) &&
      ds.all Char.isDigit) = true := by
    rw [h1, h2, hdig]
    decide
  have hm : matchPythonVersion (pythonPrefixChars ++ mj :: '.' :: ds) =
      some (mj.toNat - '0'.toNat, digitsToNat ds) := by
    unfold matchPythonVersion
    rw [if_pos hpre]
    show matchVersionTail (mj :: '.' :: ds) = _
    unfold matchVersionTail
    show (if ((mj == '2' || mj == '3') && ('.' == '.') && (!ds.isEmpty) &&
        ds.all Char.isDigit) = true then
        some (mj.toNat - '0'.toNat, digitsToNat ds) else none) = _
    rw [if_pos hcond]
  unfold is_installed
  rw [hm]

/-- Witness for `versionConstraintMatchesInterpreter`, at
`python>=3.6` on an interpreter of version `(3, 11)`. -/
theorem versionConstraintMatchesInterpreter_witness :
    is_installed ⟨(3, 11), [], fun _ => false⟩
        (pythonPrefixChars ++ '3' :: '.' :: ['6']) =
      versionGe (3, 11) ('3'.toNat - '0'.toNat, digitsToNat ['6']) :=
  versionConstraintMatchesInterpreter ⟨(3, 11), [], fun _ => false⟩ '3' ['6']
    (Or.inr rfl) (by decide) (by decide)

/-- C9: when the dependency clause of a policy string is unsatisfied,
`build_cmdline_from_spec` returns the skip result whatever the mode
suffix after the clause is — even a suffix matching none of the four
forms is never examined and never reported as a specification error. -/
theorem unsatisfiedDepsSkipUnparsedMode (inst : Str → Bool) (prog deps tl : Str)
    (hnp : ')' ∉ deps) (hunsat : depsSatisfied inst deps = false) :
    build_cmdline_from_spec inst prog ('(' :: deps ++ ')' :: tl) = .skip := by
  unfold build_cmdline_from_spec
  rw [if_pos (show ('(' :: deps ++ ')' :: tl).head? = some '(' from rfl)]
  simp [List.tail_cons, findClose_append deps tl hnp, hunsat]

/-- Witness for `unsatisfiedDepsSkipUnparsedMode`: the malformed
suffix `garbage` behind the missing dependency `missing` is silently
skipped. -/
theorem unsatisfiedDepsSkipUnparsedMode_witness :
    build_cmdline_from_spec (fun _ => false) (("x").data)
      ('(' :: ("missing").data ++ ')' :: ("garbage").data) = .skip :=
  unsatisfiedDepsSkipUnparsedMode (fun _ => false) (("x").data) (("missing").data)
    (("garbage").data) (by decide) (by decide)

/-- C10: whenever `build_cmdline_from_spec` returns a command line, its
first element is the script name, for all four non-skip policy forms. -/
theorem cmdlineStartsWithScriptName (inst : Str → Bool) (prog spec : Str)
    (cl : List Str) (h : build_cmdline_from_spec inst prog spec = .run cl) :
    ∃ rest, cl = prog :: rest := by
  unfold build_cmdline_from_spec at h
  split_ifs at h with h1
  · cases hf : findClose spec.tail with
    | none => rw [hf] at h; cases h
    | some dt =>
      simp only [hf] at h
      split_ifs at h
      exact modeCmdline_run_head h
  · exact modeCmdline_run_head h

/-- Witness for `cmdlineStartsWithScriptName`, at the `direct` policy
of script `x`. -/
theorem cmdlineStartsWithScriptName_witness :
    ([("x").data] : List Str).head? = some (("x").data) := by
  obtain ⟨rest, hr⟩ := cmdlineStartsWithScriptName (fun _ => false) (("x").data)
    (("direct").data) [("x").data] (by decide)
  rw [hr]
  rfl

/-- Witness for `argsSplitOnSingleSpaces`, at the policy
`(acpi)args[--one-shot]` of `acpi-bat` with dependency `acpi`
installed. -/
theorem argsSplitOnSingleSpaces_witness :
    build_cmdline_from_spec (fun _ => true) (("acpi-bat").data)
        ('(' :: ("acpi").data ++ ')' :: (argsOpenChars ++ ("--one-shot").data ++ [']'])) =
      .run (("acpi-bat").data :: pySplit ' ' (("--one-shot").data)) :=
  (argsSplitOnSingleSpaces (fun _ => true) (("acpi-bat").data)
    (("--one-shot").data)).2.2 (("acpi").data) (by decide) (by decide)

section LoopLemmas

theorem processScript_spawned_eq {inst : Str → Bool} {exitOf : Str → List Str → Int}
    {opts : Opts} {scripts : List (Str × Str)} {f : Str} {r : Bool} {p : Proc}
    (h : processScript inst exitOf opts scripts f = .ok r (some p)) :
    p.prog = f ∧ p.stdoutNull = !opts.showOutput ∧
      p.stderrNull = !(opts.debug || opts.verbose) := by
  unfold processScript at h
  cases hl : List.lookup f scripts with
  | none => simp only [hl] at h; injection h with h1 h2; cases h2
  | some spec =>
    simp only [hl] at h
    cases hb : build_cmdline_from_spec inst f spec with
    | skip => simp only [hb] at h; injection h with h1 h2; cases h2
    | checkError m => simp only [hb] at h; injection h with h1 h2; cases h2
    | valueError => simp only [hb] at h; cases h
    | run cl =>
      simp only [hb] at h
      injection h with h1 h2
      injection h2 with h2
      rw [← h2]
      exact ⟨rfl, rfl, rfl⟩

theorem proc_mem_scriptLoop {inst : Str → Bool} {exitOf : Str → List Str → Int}
    {opts : Opts} {scripts : List (Str × Str)} {fs : List Str} {p : Proc}
    (hp : p ∈ (scriptLoop inst exitOf opts scripts fs).2) :
    ∃ r, processScript inst exitOf opts scripts p.prog = .ok r (some p) := by
  induction fs with
  | nil => cases hp
  | cons f fs ih =>
    cases hs : processScript inst exitOf opts scripts f with
    | crash => rw [show scriptLoop inst exitOf opts scripts (f :: fs) =
        (none, []) by simp only [scriptLoop, hs]] at hp; cases hp
    | ok r q =>
      simp only [scriptLoop, hs] at hp
      rcases List.mem_append.mp hp with hq | hrest
      · cases q with
        | none => cases hq
        | some q0 =>
          have hpq : p = q0 := by simpa using hq
          subst hpq
          have hprog : p.prog = f := (processScript_spawned_eq hs).1
          exact ⟨r, by rw [hprog]; exact hs⟩
      · exact ih hrest

theorem processScript_binScripts_ne_crash (inst : Str → Bool)
    (exitOf : Str → List Str → Int) (opts : Opts) (f : Str) :
    processScript inst exitOf opts BIN_SCRIPTS f ≠ .crash := by
  unfold processScript
  cases hl : List.lookup f BIN_SCRIPTS with
  | none => simp
  | some spec =>
    have hmem : (f, spec) ∈ BIN_SCRIPTS := lookup_mem hl
    have hall : BIN_SCRIPTS.all (fun q => specWellFormed q.2) = true := by decide
    have hwf : specWellFormed spec = true := by
      simpa using List.all_eq_true.mp hall _ hmem
    cases hb : build_cmdline_from_spec inst f spec with
    | valueError => exact absurd hb (build_ne_valueError inst f spec hwf)
    | skip => simp [hb]
    | run cl => simp [hb]
    | checkError m => simp [hb]

theorem scriptLoop_isSome {inst : Str → Bool} {exitOf : Str → List Str → Int}
    {opts : Opts} {scripts : List (Str × Str)}
    (hnc : ∀ f, processScript inst exitOf opts scripts f ≠ .crash) (fs : List Str) :
    ∃ b, (scriptLoop inst exitOf opts scripts fs).1 = some b := by
  induction fs with
  | nil => exact ⟨true, rfl⟩
  | cons f fs ih =>
    obtain ⟨b, hb⟩ := ih
    cases hs : processScript inst exitOf opts scripts f with
    | crash => exact absurd hs (hnc f)
    | ok r q => exact ⟨r && b, by simp [scriptLoop, hs, hb]⟩

theorem scriptLoop_append {inst : Str → Bool} {exitOf : Str → List Str → Int}
    {opts : Opts} {scripts : List (Str × Str)}
    (hnc : ∀ f, processScript inst exitOf opts scripts f ≠ .crash) (fs₁ fs₂ : List Str) :
    ∃ b₁ b₂ : Bool,
      (scriptLoop inst exitOf opts scripts fs₁).1 = some b₁ ∧
      (scriptLoop inst exitOf opts scripts fs₂).1 = some b₂ ∧
      scriptLoop inst exitOf opts scripts (fs₁ ++ fs₂) =
        (some (b₁ && b₂),
         (scriptLoop inst exitOf opts scripts fs₁).2 ++
           (scriptLoop inst exitOf opts scripts fs₂).2) := by
  induction fs₁ with
  | nil =>
    obtain ⟨b₂, hb₂⟩ := scriptLoop_isSome hnc fs₂
    refine ⟨true, b₂, rfl, hb₂, ?_⟩
    rw [List.nil_append, Bool.true_and, ← hb₂]
    show _ = ((scriptLoop inst exitOf opts scripts fs₂).1,
      [] ++ (scriptLoop inst exitOf opts scripts fs₂).2)
    rw [List.nil_append]
  | cons f fs ih =>
    obtain ⟨b₁, b₂, h1, h2, h3⟩ := ih
    cases hs : processScript inst exitOf opts scripts f with
    | crash => exact absurd hs (hnc f)
    | ok r q =>
      refine ⟨r && b₁, b₂, ?_, h2, ?_⟩
      · simp [scriptLoop, hs, h1]
      · rw [List.cons_append]
        simp only [scriptLoop, hs, h3, h1]
        simp [Bool.and_assoc, List.append_assoc]

theorem processScript_ret_iff {inst : Str → Bool} {exitOf : Str → List Str → Int}
    {opts : Opts} {f : Str} {r : Bool} {q : Option Proc}
    (h : processScript inst exitOf opts BIN_SCRIPTS f = .ok r q) :
    r = true ↔ ScriptOk inst exitOf f := by
  unfold processScript at h
  cases hl : List.lookup f BIN_SCRIPTS with
  | none =>
    simp only [hl] at h
    injection h with h1 h2
    constructor
    · intro hr; rw [← h1] at hr; cases hr
    · rintro ⟨spec, hspec, -⟩; rw [hl] at hspec; cases hspec
  | some spec =>
    simp only [hl] at h
    cases hb : build_cmdline_from_spec inst f spec with
    | valueError => simp only [hb] at h; cases h
    | skip =>
      simp only [hb] at h
      injection h with h1 h2
      constructor
      · intro _; exact ⟨spec, hl, Or.inl hb⟩
      · intro _; exact h1.symm
    | checkError m =>
      simp only [hb] at h
      injection h with h1 h2
      constructor
      · intro hr; rw [← h1] at hr; cases hr
      · rintro ⟨spec2, hspec2, hcase⟩
        rw [hl] at hspec2
        injection hspec2 with hsp
        subst hsp
        rcases hcase with hskip | ⟨c, hrun, -⟩
        · rw [hb] at hskip; cases hskip
        · rw [hb] at hrun; cases hrun
    | run cl =>
      simp only [hb] at h
      injection h with h1 h2
      constructor
      · intro hr
        rw [← h1] at hr
        exact ⟨spec, hl, Or.inr ⟨cl, hb, beq_iff_eq.mp hr⟩⟩
      · rintro ⟨spec2, hspec2, hcase⟩
        rw [hl] at hspec2
        injection hspec2 with hsp
        subst hsp
        rcases hcase with hskip | ⟨c, hrun, hex⟩
        · rw [hb] at hskip; cases hskip
        · rw [hb] at hrun
          injection hrun with hc
          rw [← h1]
          rw [← hc] at hex
          exact beq_iff_eq.mpr hex

theorem scriptLoop_ret_iff (inst : Str → Bool) (exitOf : Str → List Str → Int)
    (opts : Opts) : ∀ (fs : List Str) (b : Bool),
    (scriptLoop inst exitOf opts BIN_SCRIPTS fs).1 = some b →
    (b = true ↔ ∀ f ∈ fs, ScriptOk inst exitOf f) := by
  intro fs
  induction fs with
  | nil =>
    intro b hb
    injection hb with hb
    rw [← hb]
    simp
  | cons f fs ih =>
    intro b hb
    cases hs : processScript inst exitOf opts BIN_SCRIPTS f with
    | crash => simp only [scriptLoop, hs] at hb; cases hb
    | ok r q =>
      simp only [scriptLoop, hs] at hb
      cases hrest : (scriptLoop inst exitOf opts BIN_SCRIPTS fs).1 with
      | none => rw [hrest] at hb; cases hb
      | some brest =>
        rw [hrest] at hb
        injection hb with hb
        rw [← hb, Bool.and_eq_true, processScript_ret_iff hs, ih brest hrest]
        exact (List.forall_mem_cons).symm

theorem unusedFiles_isEmpty_iff (scripts : List (Str × Str)) (binFiles : List Str) :
    ((unusedFiles scripts binFiles).isEmpty = true) ↔
      ∀ k ∈ scripts.map Prod.fst, k ∈ binFiles := by
  rw [List.isEmpty_iff]
  unfold unusedFiles
  rw [List.filter_eq_nil_iff]
  constructor
  · intro h k hk
    have hck := h k hk
    rw [Bool.not_eq_true, Bool.not_eq_false'] at hck
    exact List.elem_iff.mp hck
  · intro h k hk
    rw [Bool.not_eq_true, Bool.not_eq_false']
    exact List.elem_iff.mpr (h k hk)

end LoopLemmas

/-- C2 (counterexample): with `--show-output` unset and `--debug` unset
but `--verbose` set, the spawned child of the `direct` script
`asciitable` has its standard error inherited (`stderrNull = false`),
not bound to the null device, because the code passes
`show_error = opts.debug or opts.verbose`. -/
theorem verboseInheritsChildStderr :
    (⟨false, false, true⟩ : Opts).showOutput = false ∧
    (⟨false, false, true⟩ : Opts).debug = false ∧
    (test (fun _ => false) (fun _ _ => 0) ⟨false, false, true⟩ BIN_SCRIPTS
        [("asciitable").data]).2 =
      [⟨("asciitable").data, [("asciitable").data], true, false⟩] := by
  decide

/-- C2 (amended): with `--show-output` unset and `--debug` unset, every
spawned child has its standard output bound to the null device; its
standard error is bound to the null device provided `--verbose` is also
unset. -/
theorem quietFlagsSuppressChildStreams (inst : Str → Bool)
    (exitOf : Str → List Str → Int) (opts : Opts) (scripts : List (Str × Str))
    (binFiles : List Str) (ho : opts.showOutput = false) (hd : opts.debug = false) :
    ∀ p ∈ (test inst exitOf opts scripts binFiles).2,
      p.stdoutNull = true ∧ (opts.verbose = false → p.stderrNull = true) := by
  intro p hp
  have hp2 : p ∈ (scriptLoop inst exitOf opts scripts binFiles).2 := hp
  obtain ⟨r, hps⟩ := proc_mem_scriptLoop hp2
  obtain ⟨-, hout, herr⟩ := processScript_spawned_eq hps
  refine ⟨by rw [hout, ho]; rfl, fun hv => ?_⟩
  rw [herr, hd, hv]
  rfl

/-- Witness for `quietFlagsSuppressChildStreams`, at a quiet run over
the real table executing `colortable`. -/
theorem quietFlagsSuppressChildStreams_witness :
    (⟨("colortable").data, [("colortable").data], true, true⟩ : Proc).stdoutNull = true ∧
      ((⟨false, false, false⟩ : Opts).verbose = false →
        (⟨("colortable").data, [("colortable").data], true, true⟩ : Proc).stderrNull = true) :=
  quietFlagsSuppressChildStreams (fun _ => false) (fun _ _ => 0) ⟨false, false, false⟩
    BIN_SCRIPTS [("colortable").data] rfl rfl
    ⟨("colortable").data, [("colortable").data], true, true⟩ (by decide)

/-- C3: on the real policy table, no per-script error escapes an
iteration of the loop (the run never crashes), and processing a
directory listing `fs₁ ++ fs₂` is exactly processing `fs₁` and then
`fs₂`, conjoining their outcomes and concatenating their spawn traces —
a failing script never prevents the remaining scripts from being
evaluated. -/
theorem perScriptErrorsAreLocal (inst : Str → Bool) (exitOf : Str → List Str → Int)
    (opts : Opts) (fs₁ fs₂ : List Str) :
    (test inst exitOf opts BIN_SCRIPTS (fs₁ ++ fs₂)).1 ≠ none ∧
    ∃ b₁ b₂ : Bool,
      (scriptLoop inst exitOf opts BIN_SCRIPTS fs₁).1 = some b₁ ∧
      (scriptLoop inst exitOf opts BIN_SCRIPTS fs₂).1 = some b₂ ∧
      scriptLoop inst exitOf opts BIN_SCRIPTS (fs₁ ++ fs₂) =
        (some (b₁ && b₂),
         (scriptLoop inst exitOf opts BIN_SCRIPTS fs₁).2 ++
           (scriptLoop inst exitOf opts BIN_SCRIPTS fs₂).2) := by
  have hnc := processScript_binScripts_ne_crash inst exitOf opts
  obtain ⟨b₁, b₂, h1, h2, h3⟩ := scriptLoop_append hnc fs₁ fs₂
  refine ⟨?_, b₁, b₂, h1, h2, h3⟩
  show ((scriptLoop inst exitOf opts BIN_SCRIPTS (fs₁ ++ fs₂)).1.map _) ≠ none
  rw [h3]
  simp

/-- C4: the run never crashes and its exit code is `0` or `1`; it is
`0` precisely when every on-disk script has a policy entry that parses
and is either skipped or exits zero, and every policy-table key names an
on-disk script — otherwise it is `1`. -/
theorem exitCodeZeroIffAllReconciled (inst : Str → Bool)
    (exitOf : Str → List Str → Int) (opts : Opts) (binFiles : List Str) :
    (mainExit inst exitOf opts binFiles = some 0 ∨
      mainExit inst exitOf opts binFiles = some 1) ∧
    (mainExit inst exitOf opts binFiles = some 0 ↔
      (∀ f ∈ binFiles, ScriptOk inst exitOf f) ∧
      ∀ k ∈ BIN_SCRIPTS.map Prod.fst, k ∈ binFiles) := by
  have hnc := processScript_binScripts_ne_crash inst exitOf opts
  obtain ⟨b, hb⟩ := scriptLoop_isSome hnc binFiles
  have hiff := scriptLoop_ret_iff inst exitOf opts binFiles b hb
  have hmain : mainExit inst exitOf opts binFiles =
      some (if (b && (unusedFiles BIN_SCRIPTS binFiles).isEmpty) = true
        then 0 else 1) := by
    unfold mainExit test
    rw [hb]
    rfl
  have key : mainExit inst exitOf opts binFiles = some 0 ↔
      (b && (unusedFiles BIN_SCRIPTS binFiles).isEmpty) = true := by
    rw [hmain]
    constructor
    · intro h0
      by_contra hc
      rw [Bool.not_eq_true] at hc
      rw [hc] at h0
      injection h0 with h0
      cases h0
    · intro hc
      rw [hc]
      rfl
  constructor
  · by_cases hc : (b && (unusedFiles BIN_SCRIPTS binFiles).isEmpty) = true
    · exact Or.inl (key.mpr hc)
    · right
      rw [Bool.not_eq_true] at hc
      rw [hmain, hc]
      rfl
  · rw [key, Bool.and_eq_true, hiff, unusedFiles_isEmpty_iff]

/-- C5: a script whose policy resolves to `never` (with or without a
dependency clause, under every dependency-availability combination
`inst`) never has a subprocess spawned for it: no process in the spawn
trace of a run carries its name. -/
theorem neverPolicyNeverSpawns (inst : Str → Bool) (exitOf : Str → List Str → Int)
    (opts : Opts) (scripts : List (Str × Str)) (binFiles : List Str)
    (prog spec : Str) (hlook : List.lookup prog scripts = some spec)
    (hnever : isNeverSpec spec = true) :
    build_cmdline_from_spec inst prog spec = .skip ∧
    ∀ p ∈ (test inst exitOf opts scripts binFiles).2, p.prog ≠ prog := by
  refine ⟨build_of_isNeverSpec inst prog spec hnever, ?_⟩
  intro p hp heq
  have hp2 : p ∈ (scriptLoop inst exitOf opts scripts binFiles).2 := hp
  obtain ⟨r, hps⟩ := proc_mem_scriptLoop hp2
  rw [heq] at hps
  unfold processScript at hps
  simp only [hlook, build_of_isNeverSpec inst prog spec hnever] at hps
  injection hps with h1 h2
  cases h2

/-- Witness for `neverPolicyNeverSpawns`: in a run over scripts `a`
(policy `direct`) and `n` (policy `never`), the only spawned process is
the one for `a`, whose name differs from `n`. -/
theorem neverPolicyNeverSpawns_witness :
    build_cmdline_from_spec (fun _ => false) (("n").data) (("never").data) = .skip ∧
    (⟨("a").data, [("a").data], true, true⟩ : Proc).prog ≠ ("n").data := by
  have h := neverPolicyNeverSpawns (fun _ => false) (fun _ _ => 0) ⟨false, false, false⟩
    [(("a").data, ("direct").data), (("n").data, ("never").data)]
    [("a").data, ("n").data] (("n").data) (("never").data) (by decide) (by decide)
  exact ⟨h.1, h.2 ⟨("a").data, [("a").data], true, true⟩ (by decide)⟩

/-- C7: a directory entry with no policy-table entry forces the run's
result to `false` (a reported failure, with the run still completing
normally), and a policy-table key naming no directory entry likewise
forces the result to `false`. -/
theorem reconciliationFailuresReported (inst : Str → Bool)
    (exitOf : Str → List Str → Int) (opts : Opts) (binFiles : List Str) :
    (∀ f ∈ binFiles, List.lookup f BIN_SCRIPTS = none →
      (test inst exitOf opts BIN_SCRIPTS binFiles).1 = some false) ∧
    (∀ k ∈ BIN_SCRIPTS.map Prod.fst, k ∉ binFiles →
      (test inst exitOf opts BIN_SCRIPTS binFiles).1 = some false) := by
  have hnc := processScript_binScripts_ne_crash inst exitOf opts
  obtain ⟨b, hb⟩ := scriptLoop_isSome hnc binFiles
  have hiff := scriptLoop_ret_iff inst exitOf opts binFiles b hb
  have htest : (test inst exitOf opts BIN_SCRIPTS binFiles).1 =
      some (b && (unusedFiles BIN_SCRIPTS binFiles).isEmpty) := by
    unfold test
    rw [hb]
    rfl
  constructor
  · intro f hf hnone
    have hbf : b = false := by
      by_contra hc
      rw [Bool.not_eq_false] at hc
      obtain ⟨spec, hspec, -⟩ := hiff.mp hc f hf
      rw [hnone] at hspec
      cases hspec
    rw [htest, hbf]
    rfl
  · intro k hk hnot
    have he : (unusedFiles BIN_SCRIPTS binFiles).isEmpty = false := by
      by_contra hc
      rw [Bool.not_eq_false] at hc
      exact hnot ((unusedFiles_isEmpty_iff _ _).mp hc k hk)
    rw [htest, he, Bool.and_false]

/-- Witness for `reconciliationFailuresReported`: a directory holding
only the unknown script `zzz` fails, and an empty directory (orphaning
the table entry `vlc`, among others) fails. -/
theorem reconciliationFailuresReported_witness :
    (test (fun _ => false) (fun _ _ => 0) ⟨false, false, false⟩ BIN_SCRIPTS
      [("zzz").data]).1 = some false ∧
    (test (fun _ => false) (fun _ _ => 0) ⟨false, false, false⟩ BIN_SCRIPTS
      []).1 = some false :=
  ⟨(reconciliationFailuresReported (fun _ => false) (fun _ _ => 0)
      ⟨false, false, false⟩ [("zzz").data]).1 (("zzz").data) (by decide) (by decide),
   (reconciliationFailuresReported (fun _ => false) (fun _ _ => 0)
      ⟨false, false, false⟩ []).2 (("vlc").data) (by decide) (by decide)⟩

end RunScripts
